import Mathlib

/-!
# Verification of the teamgr ingestion and schema-evolution pipeline

Shallow embedding of `backend/app` (routers/entry.py, routers/talents.py,
services/llm_service.py, main.py, models/talent.py) in Lean 4, together with
proofs about the embedded operations.

Modelling conventions:
* JSON values (Python objects produced by `json.loads`) are the inductive
  `Json`.  Python `dict`s with string keys are insertion-ordered association
  lists (`Dict`), matching Python dict semantics (`dictGet`, `dictSet`,
  `dictContains`).
* `json.loads : str -> object` is an external library routine; it is passed
  to the embedded functions as an explicit parameter
  `parse : String → Option Json` (`none` models a raised
  `json.JSONDecodeError`).
* The SQLAlchemy session (`SessionLocal()`, `autoflush=False`) is modelled by
  threading a pending `DB` value through each background task; `db.commit()`
  makes the pending value the new store state, and a task that returns
  without committing leaves the store unchanged.  An exception raised in the
  middle of a task jumps to the task's `except` handler *with the pending
  mutations still staged*, exactly as in SQLAlchemy, where only an explicit
  rollback would discard them.
* `talents.card_data` is a plain `Column(JSON)` (no `MutableDict`, no
  `flag_modified`), so a write is flushed only when the attribute is
  assigned a value that differs from the loaded one.  Code that copies the
  dict before writing (main.py line 78, talents.py line 247) or assigns a
  fresh object (entry.py line 120) persists; code that mutates the loaded
  dict in place and reassigns the *same object* (the backfill,
  entry.py 75-78, and the document-modality merge, entry.py 205-209) is
  silently dropped by the store whenever the loaded card was non-empty.
  The threaded `DB` value models the store's committed view of these
  writes.
* The Gemini call plus response-text JSON decoding inside
  `llm_service.update_talent_card` / `parse_pdf_content` (the part inside
  their `try:` blocks up to `json.loads`) is modelled by an
  `Except String _` argument: `.error msg` models the call or parse raising.
-/

/-- A JSON value, as produced by Python's `json.loads`.  Numbers are modelled
as integers (no claim involves fractional values). -/
inductive Json where
  | null
  | bool (b : Bool)
  | num (n : Int)
  | str (s : String)
  | arr (xs : List Json)
  | obj (kvs : List (String × Json))

/-- Python truthiness (`bool(v)`) for JSON values: `None`, `False`, `0`, `""`,
`[]` and `\x7b\x7d` are falsy, everything else truthy. -/
def Json.truthy : Json → Bool
  | .null => false
  | .bool b => b
  | .num n => n != 0
  | .str s => s != ""
  | .arr xs => !xs.isEmpty
  | .obj kvs => !kvs.isEmpty

/-- A Python `dict` with string keys: an insertion-ordered association list. -/
abbrev Dict := List (String × Json)

/-- `d.get(k)` / `d[k]`: value of the first (unique, in a real dict) binding. -/
def dictGet (d : Dict) (k : String) : Option Json :=
  match d with
  | [] => none
  | (k2, v) :: rest => if k2 = k then some v else dictGet rest k

/-- `k in d`. -/
def dictContains (d : Dict) (k : String) : Bool :=
  (dictGet d k).isSome

/-- `d[k] = v`: replace in place if the key is present, else append —
Python dict assignment preserves insertion order. -/
def dictSet (d : Dict) (k : String) (v : Json) : Dict :=
  match d with
  | [] => [(k, v)]
  | (k2, v2) :: rest => if k2 = k then (k2, v) :: rest else (k2, v2) :: dictSet rest k v

/-- Row of `card_dimensions` (models/talent.py `CardDimension`). -/
structure CardDimension where
  key : String
  label : String
  schema : String
  is_default : Bool
  sort_order : Nat

/-- The serialized `llm_response` text column of an entry log.  The stored
text is `json.dumps` of a JSON value; the serialization itself is modelled
structurally (`stored j` stands for the dumped text of `j`, `empty` for the
column default `""`). -/
inductive LlmResponse where
  | empty
  | stored (j : Json)

/-- Row of `talents` (models/talent.py `Talent`); only the columns the
ingestion pipeline reads or writes.  `card_data` is a nullable JSON column;
every writer in the modelled code stores a JSON object there, so the value
is a `Dict`. -/
structure Talent where
  id : Nat
  name : String
  email : String
  phone : String
  current_role : String
  department : String
  card_data : Option Dict
  summary : String

/-- Row of `tags`. -/
structure Tag where
  id : Nat
  name : String
  color : String

/-- Row of the `talent_tags` join table. -/
structure TalentTag where
  talent_id : Nat
  tag_id : Nat

/-- Row of `entry_logs` (models/talent.py `EntryLog`).  `status` is a nullable
text column (`processing` / `done` / `failed`); `created_at` is an abstract
timestamp. -/
structure EntryLog where
  id : Nat
  talent_id : Nat
  content : String
  source : String
  status : Option String
  llm_response : LlmResponse
  created_at : Nat

/-- The relational store. -/
structure DB where
  talents : List Talent
  dimensions : List CardDimension
  tags : List Tag
  talent_tags : List TalentTag
  entry_logs : List EntryLog

/-- Update every talent row matching `talent_id` (ids are unique in the real
store) with `f`. -/
def updTalent (talents : List Talent) (talent_id : Nat) (f : Talent → Talent) : List Talent :=
  talents.map (fun t => if t.id == talent_id then f t else t)

/-! ## Dimension registry and backfill (entry.py `_apply_new_dimensions`) -/

/-- entry.py lines 62-71: derive the structural empty default from the parsed
shape hint `schema_val` — an object whose `"type"` is `"array"` or whose
`"items"` is an object, or an array, gives `[]`; any other object gives
`\x7b\x7d`; everything else gives `""`. -/
def emptyDefault (schema_val : Json) : Json :=
  match schema_val with
  | .obj kvs =>
      let isArrayType : Bool :=
        match dictGet kvs "type" with
        | some (.str t) => t == "array"
        | _ => false
      let itemsIsDict : Bool :=
        match dictGet kvs "items" with
        | some (.obj _) => true
        | _ => false
      if isArrayType || itemsIsDict then .arr [] else .obj []
  | .arr _ => .arr []
  | _ => .str ""

/-- entry.py lines 56-59 followed by 62-71: `json.loads` the schema hint text
(falling back to `""` when it raises, or when the hint is not a string at
all — `json.loads` of a non-string raises `TypeError`), then derive the
structural default. -/
def schemaDefault (parse : String → Option Json) (schemaJ : Json) : Json :=
  match schemaJ with
  | .str s => emptyDefault ((parse s).getD (.str ""))
  | _ => emptyDefault (.str "")

/-- One iteration of the loop in entry.py `_apply_new_dimensions`
(lines 35-80): skip when the proposal's `"key"` is falsy or already present
in the registry; otherwise append the dimension with
`sort_order = current count` and run the backfill loop.  The state threaded
here is the *store's* view.  `card_data` is a plain `Column(JSON)` with no
mutation tracking, so the backfill write at lines 75-78 reaches the store
only when `talent.card_data or \x7b\x7d` built a **fresh** dict — i.e. when
the card seen at this point is null or empty.  For a non-empty card the
loop mutates the loaded dict in place and reassigns the *same object*;
SQLAlchemy detects no change and never flushes it, so the store keeps the
prior card.  (This also covers later proposals of the same run: the
`db.flush()` at line 53 of the next accepted proposal commits the fresh
dict, after which further in-place writes to it are likewise invisible —
exactly the threaded behaviour, since the once-backfilled card is no
longer empty.)  A truthy non-string `"key"` (never produced by the
JSON-object oracle contract) is not modelled and leaves the state
unchanged; likewise the non-string `"label"` / `"schema"` fallbacks reuse
the key / the default schema text. -/
def applyOneDimension (parse : String → Option Json)
    (dims : List CardDimension) (talents : List Talent) (dim : Dict) :
    List CardDimension × List Talent :=
  let keyJ := (dictGet dim "key").getD (.str "")
  match keyJ with
  | .str key =>
    if key = "" then (dims, talents)
    else if dims.any (fun d => d.key == key) then (dims, talents)
    else
      let max_order := dims.length
      let labelJ := (dictGet dim "label").getD (.str key)
      let label := match labelJ with | .str s => s | _ => key
      let schemaJ := (dictGet dim "schema").getD (.str "\"\"")
      let schemaStr := match schemaJ with | .str s => s | _ => "\"\""
      let newDim : CardDimension :=
        { key := key, label := label, schema := schemaStr,
          is_default := false, sort_order := max_order }
      let default_value := schemaDefault parse schemaJ
      let talents2 := talents.map (fun t =>
        let card := t.card_data.getD []
        if dictContains card key then t
        else if card.isEmpty then
          { t with card_data := some (dictSet card key default_value) }
        else t)
      (dims ++ [newDim], talents2)
  | _ => (dims, talents)

/-- entry.py `_apply_new_dimensions` (lines 30-80): fold the loop over the
proposed dimensions, threading the registry and the talent table (the
in-loop `db.flush()` makes each accepted proposal visible to the duplicate
check and the `count()` of later iterations). -/
def applyNewDimensions (parse : String → Option Json)
    (dims : List CardDimension) (talents : List Talent)
    (new_dimensions : List Dict) : List CardDimension × List Talent :=
  new_dimensions.foldl (fun acc dim => applyOneDimension parse acc.1 acc.2 dim) (dims, talents)

/-! ## Tag resolution (entry.py `_ensure_tags`) and linking -/

/-- Next autoincrement id for the `tags` table. -/
def freshTagId (tags : List Tag) : Nat :=
  tags.foldl (fun m t => max m t.id) 0 + 1

/-- entry.py `_ensure_tags` (lines 83-96): for each suggested name, strip it,
skip it when blank, look it up case-sensitively, creating (and flushing) it
when missing, and collect the ids.  A non-string element raises
`AttributeError` at `name.strip()`; the error carries the tag table as
already mutated by the earlier iterations (those `db.add`/`db.flush` calls
stay staged in the session). -/
def ensure_tags (tags : List Tag) (names : List Json) :
    Except (String × List Tag) (List Nat × List Tag) :=
  match names with
  | [] => .ok ([], tags)
  | n :: rest =>
    match n with
    | .str s =>
      let name := s.trim
      if name = "" then ensure_tags tags rest
      else
        match tags.find? (fun t => t.name == name) with
        | some tag =>
          match ensure_tags tags rest with
          | .ok (ids, tags2) => .ok (tag.id :: ids, tags2)
          | .error e => .error e
        | none =>
          let nid := freshTagId tags
          let tags2 := tags ++ [{ id := nid, name := name, color := "#3B82F6" }]
          match ensure_tags tags2 rest with
          | .ok (ids, tags3) => .ok (nid :: ids, tags3)
          | .error e => .error e
    | _ => .error ("AttributeError: object has no attribute strip", tags)

/-- entry.py lines 128-133 / 218-223: compute the set of tag ids already
linked to the talent once, then add a join row for every resolved id not in
that set. -/
def link_tags (talent_tags : List TalentTag) (talent_id : Nat) (tag_ids : List Nat) :
    List TalentTag :=
  let existing := (talent_tags.filter (fun tt => tt.talent_id == talent_id)).map (fun tt => tt.tag_id)
  talent_tags ++ (tag_ids.filter (fun tid => !(existing.contains tid))).map
    (fun tid => { talent_id := talent_id, tag_id := tid })

/-- Set `llm_response` and `status` on the entry-log row with the given id
(entry.py lines 136-139 / 147-150 / 226-229). -/
def finalize_entry (logs : List EntryLog) (entry_log_id : Nat)
    (resp : LlmResponse) (st : String) : List EntryLog :=
  logs.map (fun e =>
    if e.id == entry_log_id then { e with llm_response := resp, status := some st } else e)

/-! ## Text-modality oracle client and pipeline -/

/-- The JSON shape `llm_service.update_talent_card` extracts from the model
response (its docstring, lines 83-88): full replacement card, one-line
summary, suggested tag names (arbitrary JSON values until validated), and
proposed new dimensions (JSON objects, per the documented
`\x7bkey, label, schema\x7d` contract). -/
structure LlmResult where
  card_data : Dict
  summary : String
  suggested_tags : List Json
  new_dimensions : List Dict

/-- The `json.dumps(result, ensure_ascii=False)` audit payload stored on a
successful entry (entry.py line 138). -/
def LlmResult.toJson (r : LlmResult) : Json :=
  .obj [("card_data", .obj r.card_data), ("summary", .str r.summary),
        ("suggested_tags", .arr r.suggested_tags),
        ("new_dimensions", .arr (r.new_dimensions.map Json.obj))]

/-- llm_service.update_talent_card (lines 75-180): `raw_response` is the
outcome of the Gemini call plus JSON decode inside the `try:` block
(`.error` = any exception raised there).  On an exception the function
catches it, logs it, and returns the fallback no-op result whose `card_data`
is the caller's `existing_card_data`; it never re-raises.  (The
not-configured path, lines 90-97, returns the same fallback.) -/
def update_talent_card (raw_response : Except String LlmResult)
    (existing_card_data : Dict) : LlmResult :=
  match raw_response with
  | .ok result => result
  | .error _ =>
    { card_data := existing_card_data, summary := "", suggested_tags := [],
      new_dimensions := [] }

/-- The `json.dumps(\x7b"error": str(e)\x7d)` payload stored on a failed entry
(entry.py lines 150 / 241). -/
def errorDump (msg : String) : Json :=
  .obj [("error", .str msg)]

/-- entry.py `_process_text_entry_bg` (lines 99-155).  The oracle result is
applied to a fresh session over `db`: new dimensions, wholesale card
replacement, summary if truthy, tag resolution and linking, then the entry
log is marked `done` and everything is committed at once.  If tag resolution
raises (non-string suggested tag), control jumps to the `except` handler,
which marks the entry `failed`, stores the error dump, and commits — the
session still carries every mutation staged before the exception, so those
are committed too. -/
def processTextEntryBg (parse : String → Option Json)
    (raw_response : Except String LlmResult) (db : DB)
    (entry_log_id talent_id : Nat) (existing_card_data : Dict) : DB :=
  let result := update_talent_card raw_response existing_card_data
  match db.talents.find? (fun t => t.id == talent_id) with
  | none => db
  | some _ =>
    let p := applyNewDimensions parse db.dimensions db.talents result.new_dimensions
    let talents2 := updTalent p.2 talent_id (fun t => { t with card_data := some result.card_data })
    let talents3 :=
      if result.summary = "" then talents2
      else updTalent talents2 talent_id (fun t => { t with summary := result.summary })
    if result.suggested_tags.isEmpty then
      { talents := talents3, dimensions := p.1, tags := db.tags,
        talent_tags := db.talent_tags,
        entry_logs := finalize_entry db.entry_logs entry_log_id (.stored result.toJson) "done" }
    else
      match ensure_tags db.tags result.suggested_tags with
      | .ok (tag_ids, tags2) =>
        { talents := talents3, dimensions := p.1, tags := tags2,
          talent_tags := link_tags db.talent_tags talent_id tag_ids,
          entry_logs := finalize_entry db.entry_logs entry_log_id (.stored result.toJson) "done" }
      | .error (msg, tags2) =>
        { talents := talents3, dimensions := p.1, tags := tags2,
          talent_tags := db.talent_tags,
          entry_logs := finalize_entry db.entry_logs entry_log_id (.stored (errorDump msg)) "failed" }

/-! ## Document-modality oracle client and pipeline -/

/-- The empty-result fallback of `llm_service.parse_pdf_content`
(lines 282-283 / 287-288). -/
def pdfFallback : Json :=
  .obj [("card_data", .obj []), ("summary", .str ""), ("suggested_tags", .arr []),
        ("new_dimensions", .arr []), ("extracted_info", .obj [])]

/-- llm_service.parse_pdf_content (lines 183-288): any exception from the
Gemini call or the JSON decode, and any decoded non-object value, degrades
to the empty fallback result; a decoded object is returned as-is. -/
def parse_pdf_content (raw_response : Except String Json) : Json :=
  match raw_response with
  | .error _ => pdfFallback
  | .ok j =>
    match j with
    | .obj _ => j
    | _ => pdfFallback

/-- entry.py lines 202-209: additive merge of the oracle card into the
record's card.  A value is written only when it is Python-truthy
(`if value and value != "" and value != [] and value != \x7b\x7d` — the three
inequality tests are subsumed by truthiness, which also skips `0`, `False`
and `None`). -/
def mergeAdditive (existing_card : Dict) (new_card_data : Dict) : Dict :=
  new_card_data.foldl
    (fun card kv => if kv.2.truthy then dictSet card kv.1 kv.2 else card)
    existing_card

/-- entry.py lines 193-200: overwrite a contact field only when the
extracted value is truthy and the current value is blank.  A truthy
non-string extracted value (which Python would store as-is into the string
column) is not modelled and keeps the current value. -/
def fillBlank (v : Option Json) (cur : String) : String :=
  match v with
  | some (.str s) => if s ≠ "" && cur = "" then s else cur
  | _ => cur

/-- entry.py `_process_pdf_entry_bg` (lines 158-246): degrade a non-object
result to the empty shape (lines 175-177), apply the object-filtered new
dimensions, fill blank contact fields from `extracted_info`, additively
merge `card_data` when it is an object, take a truthy summary, resolve the
string-filtered suggested tags, mark the entry `done` and commit.  The
state threaded is the *store's* view: like the backfill, the additive
merge (lines 205-209) mutates `talent.card_data or \x7b\x7d` in place and
reassigns the same object, so it reaches the store only when that built a
fresh dict still pending at commit — i.e. the card loaded at task start
was null or empty, and at most one new dimension was accepted in this run
(a second accepted proposal's `db.flush()` at line 53 commits the fresh
dict before the merge mutates it, dropping the merge); the merged content
then includes the pending backfill.  For a record with a non-empty loaded
card the merge is silently dropped by the store.  Only store-level
failures can reach this task's `except` handler (the oracle client never
raises and the tag names are pre-filtered), so the modelled task is
total. -/
def processPdfEntryBg (parse : String → Option Json)
    (raw_response : Except String Json) (db : DB)
    (entry_log_id talent_id : Nat) : DB :=
  let result0 := parse_pdf_content raw_response
  let resultJ :=
    match result0 with
    | .obj _ => result0
    | _ => .obj [("card_data", .obj []), ("summary", .str ""),
                 ("suggested_tags", .arr []), ("new_dimensions", .arr [])]
  let result : Dict := match resultJ with | .obj kvs => kvs | _ => []
  match db.talents.find? (fun t => t.id == talent_id) with
  | none => db
  | some t0 =>
    let ndJ := (dictGet result "new_dimensions").getD (.arr [])
    let p :=
      match ndJ with
      | .arr ds =>
        applyNewDimensions parse db.dimensions db.talents
          (ds.filterMap (fun d => match d with | Json.obj kvs => some kvs | _ => none))
      | _ => (db.dimensions, db.talents)
    let created := p.1.length - db.dimensions.length
    let extracted : Dict :=
      match (dictGet result "extracted_info").getD (.obj []) with
      | .obj kvs => kvs
      | _ => []
    let talents2 := updTalent p.2 talent_id (fun t =>
      { t with
        email := fillBlank (dictGet extracted "email") t.email,
        phone := fillBlank (dictGet extracted "phone") t.phone,
        current_role := fillBlank (dictGet extracted "current_role") t.current_role,
        department := fillBlank (dictGet extracted "department") t.department })
    let talents3 :=
      match (dictGet result "card_data").getD (.obj []) with
      | .obj newCard =>
        if (t0.card_data.getD []).isEmpty ∧ created ≤ 1 then
          updTalent talents2 talent_id (fun t =>
            { t with card_data := some (mergeAdditive (t.card_data.getD []) newCard) })
        else talents2
      | _ => talents2
    let talents4 :=
      match dictGet result "summary" with
      | some (.str s) => if s ≠ "" then updTalent talents3 talent_id (fun t => { t with summary := s }) else talents3
      | _ => talents3
    let q :=
      match (dictGet result "suggested_tags").getD (.arr []) with
      | .arr ts =>
        if ts.isEmpty then (db.tags, db.talent_tags)
        else
          let strTags := ts.filterMap (fun t => match t with | Json.str s => some (Json.str s) | _ => none)
          match ensure_tags db.tags strTags with
          | .ok (tag_ids, tags2) => (tags2, link_tags db.talent_tags talent_id tag_ids)
          | .error (_, tags2) => (tags2, db.talent_tags)
      | _ => (db.tags, db.talent_tags)
    { talents := talents4, dimensions := p.1, tags := q.1, talent_tags := q.2,
      entry_logs := finalize_entry db.entry_logs entry_log_id (.stored resultJ) "done" }

/-! ## Startup (main.py `lifespan`) -/

/-- One entry of the Recovery Sweep (main.py lines 65-68): a row whose
status is exactly `"processing"` is forced to `"failed"`; every other row
(including null status) is left alone. -/
def sweepOne (e : EntryLog) : EntryLog :=
  if e.status == some "processing" then { e with status := some "failed" } else e

/-- main.py lines 65-70: the Recovery Sweep over the whole entry-log table,
run synchronously at process startup. -/
def recoverySweep (logs : List EntryLog) : List EntryLog :=
  logs.map sweepOne

/-- main.py lines 80-83: a card value is "schema-shaped" when it is an
object with a `"type"` key and a `"properties"` or `"items"` key. -/
def isSchemaShaped (v : Json) : Bool :=
  match v with
  | .obj kvs => dictContains kvs "type" && (dictContains kvs "properties" || dictContains kvs "items")
  | _ => false

/-- main.py line 82: rewrite a schema-shaped value to `[]` when its
`"type"` equals `"array"`, else to `\x7b\x7d`; leave every other value
unchanged. -/
def cleanValue (v : Json) : Json :=
  if isSchemaShaped v then
    match v with
    | .obj kvs =>
      match dictGet kvs "type" with
      | some (.str t) => if t = "array" then .arr [] else .obj []
      | _ => .obj []
    | _ => v
  else v

/-- main.py lines 78-85: clean every value of one card in place. -/
def cleanCard (card : Dict) : Dict :=
  card.map (fun kv => (kv.1, cleanValue kv.2))

/-- main.py lines 73-89: the startup pass over all talents, skipping rows
whose `card_data` is null or empty (falsy). -/
def cleanupSchemaValues (talents : List Talent) : List Talent :=
  talents.map (fun t =>
    match t.card_data with
    | none => t
    | some card => if card.isEmpty then t else { t with card_data := some (cleanCard card) })

/-! ## Talent creation (talents.py `create_talent`) -/

/-- Ordered insertion, used to model SQL `ORDER BY`. -/
def insertOrdered (before : α → α → Bool) (x : α) : List α → List α
  | [] => [x]
  | y :: rest => if before x y then x :: y :: rest else y :: insertOrdered before x rest

/-- Insertion sort, used to model SQL `ORDER BY` (ties are returned in an
unspecified order by the store, so any total ordering of them is a faithful
model). -/
def sortOrdered (before : α → α → Bool) (l : List α) : List α :=
  l.foldr (insertOrdered before) []

/-- The dimension registry in display order
(`ORDER BY card_dimensions.sort_order`). -/
def sortedDimensions (dims : List CardDimension) : List CardDimension :=
  sortOrdered (fun d e => d.sort_order < e.sort_order) dims

/-- talents.py lines 196-202: build the initial card — for each registered
dimension, `json.loads` its schema text, falling back to `""` when the text
is unparsable. -/
def initialCardData (parse : String → Option Json) (dims : List CardDimension) : Dict :=
  (sortedDimensions dims).foldl
    (fun card d => dictSet card d.key ((parse d.schema).getD (Json.str ""))) []

/-- Next autoincrement id for the `talents` table. -/
def freshTalentId (talents : List Talent) : Nat :=
  talents.foldl (fun m t => max m t.id) 0 + 1

/-- talents.py `create_talent` (lines 187-217): insert a new talent whose
card is `initialCardData` over the current registry (pinyin derivation is
external and not modelled). -/
def create_talent (parse : String → Option Json) (db : DB)
    (name email phone current_role department : String) : DB × Talent :=
  let t : Talent :=
    { id := freshTalentId db.talents, name := name, email := email, phone := phone,
      current_role := current_role, department := department,
      card_data := some (initialCardData parse db.dimensions), summary := "" }
  ({ db with talents := db.talents ++ [t] }, t)

/-! ## Entry endpoints (entry.py) -/

/-- An HTTP error surfaced synchronously to the caller. -/
inductive ApiError where
  | notFound (detail : String)

/-- Python `entry.status or "done"` (entry.py lines 374 / 414): a null or
empty stored status is reported as `"done"`. -/
def statusOrDone (s : Option String) : String :=
  match s with
  | none => "done"
  | some t => if t = "" then "done" else t

/-- Response of `GET /api/entry/status/\x7bentry_id\x7d`. -/
structure StatusResponse where
  entry_id : Nat
  status : String
  talent_id : Nat

/-- entry.py `get_entry_status` (lines 361-376): 404 when the entry log id
is unknown, otherwise the entry's status with null defaulted to `"done"`. -/
def get_entry_status (db : DB) (entry_id : Nat) : Except ApiError StatusResponse :=
  match db.entry_logs.find? (fun e => e.id == entry_id) with
  | none => .error (.notFound "记录不存在")
  | some e => .ok { entry_id := e.id, status := statusOrDone e.status, talent_id := e.talent_id }

/-- One item of the `GET /api/entry/logs/\x7btalent_id\x7d` response. -/
structure LogView where
  id : Nat
  content : String
  source : String
  status : String
  created_at : Nat

/-- entry.py `get_entry_logs` (lines 394-418): 404 when the talent is
unknown, otherwise the talent's entry logs ordered by `created_at`
descending, each with the null-to-`"done"` status defaulting. -/
def get_entry_logs (db : DB) (talent_id : Nat) : Except ApiError (List LogView) :=
  match db.talents.find? (fun t => t.id == talent_id) with
  | none => .error (.notFound "人才不存在")
  | some _ =>
    let logs := sortOrdered (fun a b => a.created_at > b.created_at)
      (db.entry_logs.filter (fun e => e.talent_id == talent_id))
    .ok (logs.map (fun log =>
      { id := log.id, content := log.content, source := log.source,
        status := statusOrDone log.status, created_at := log.created_at }))

/-- Next autoincrement id for the `entry_logs` table. -/
def freshEntryId (logs : List EntryLog) : Nat :=
  logs.foldl (fun m e => max m e.id) 0 + 1

/-- entry.py `submit_text_entry` (lines 249-288): 404 when the talent id is
unknown; otherwise commit a new entry log in state `processing` and return
(synchronously) the new store, the job id, and the card snapshot
(`talent.card_data or \x7b\x7d`) that is handed to the background task. -/
def submit_text_entry (db : DB) (talent_id : Nat) (content : String) (now : Nat) :
    Except ApiError (DB × Nat × Dict) :=
  match db.talents.find? (fun t => t.id == talent_id) with
  | none => .error (.notFound "人才不存在")
  | some t =>
    let eid := freshEntryId db.entry_logs
    let log : EntryLog :=
      { id := eid, talent_id := t.id, content := content, source := "manual",
        status := some "processing", llm_response := .empty, created_at := now }
    .ok ({ db with entry_logs := db.entry_logs ++ [log] }, eid, t.card_data.getD [])

/-- A dimension proposal that is a no-op against the given registry: its
`"key"` is falsy or non-string, or a dimension with that key already
exists.  (Proof-side predicate used to reason about
`_apply_new_dimensions`.) -/
def coveredDim (dims : List CardDimension) (dim : Dict) : Prop :=
  match (dictGet dim "key").getD (Json.str "") with
  | .str k => k = "" ∨ dims.any (fun d => d.key == k) = true
  | _ => True

/-! ## Concrete fixtures used by witness and counterexample theorems -/

/-- A talent whose card is `\x7b"a": "x"\x7d`. -/
def talentA : Talent :=
  { id := 1, name := "Alice", email := "", phone := "", current_role := "",
    department := "", card_data := some [("a", Json.str "x")], summary := "" }

/-- A store holding only `talentA`. -/
def dbA : DB :=
  { talents := [talentA], dimensions := [], tags := [], talent_tags := [],
    entry_logs := [] }

/-- The entry log created by submitting a text note for `talentA` at time 5. -/
def logA : EntryLog :=
  { id := 1, talent_id := 1, content := "note", source := "manual",
    status := some "processing", llm_response := .empty, created_at := 5 }

/-- `dbA` right after the synchronous part of the text submission. -/
def dbASubmitted : DB :=
  { dbA with entry_logs := [logA] }

/-- An oracle result whose suggested tags contain a non-string element —
`_ensure_tags` raises `AttributeError` on it after the card was already
replaced in the session. -/
def resultBad : LlmResult :=
  { card_data := [("skills", Json.arr [Json.str "Go"])], summary := "",
    suggested_tags := [Json.num 42], new_dimensions := [] }

/-- The successful oracle result of the spec's end-to-end scenario (§8). -/
def resultGood : LlmResult :=
  { card_data := [("skills", Json.arr [Json.str "Go", Json.str "distributed systems"])],
    summary := "Go/distributed systems engineer",
    suggested_tags := [Json.str "Go"], new_dimensions := [] }

/-- A registered dimension. -/
def dimA : CardDimension :=
  { key := "skills", label := "技能", schema := "[]", is_default := true,
    sort_order := 0 }

/-- A new-dimension proposal as returned by the oracle. -/
def propA : Dict :=
  [("key", Json.str "projects"), ("label", Json.str "项目"),
   ("schema", Json.str "[]")]

/-- An entry log predating the `status` column: its stored status is null. -/
def logNull : EntryLog :=
  { id := 1, talent_id := 1, content := "old", source := "manual",
    status := none, llm_response := .empty, created_at := 7 }

/-- A store with one talent and one null-status entry log. -/
def dbNull : DB :=
  { dbA with entry_logs := [logNull] }

/-- A concrete stand-in for `json.loads` in witnesses: parses only the two
schema texts the fixtures use. -/
def parseStub (s : String) : Option Json :=
  if s = "[]" then some (Json.arr [])
  else if s = "\"\"" then some (Json.str "")
  else none

/-! ## Library lemmas about the dictionary, lookup and sorting primitives -/

theorem dictGet_set_self (d : Dict) (k : String) (v : Json) :
    dictGet (dictSet d k v) k = some v := by
  induction d with
  | nil => simp [dictSet, dictGet]
  | cons kv rest ih =>
    obtain ⟨k2, v2⟩ := kv
    by_cases h : k2 = k
    · simp [dictSet, dictGet, h]
    · simp [dictSet, dictGet, h, ih]

theorem dictGet_set_ne (d : Dict) (k2 k : String) (v : Json) (h : k2 ≠ k) :
    dictGet (dictSet d k2 v) k = dictGet d k := by
  induction d with
  | nil => simp [dictSet, dictGet, h]
  | cons kv rest ih =>
    obtain ⟨k3, v3⟩ := kv
    by_cases h2 : k3 = k2
    · subst h2
      simp [dictSet, dictGet, h]
    · simp [dictSet, dictGet, h2, ih]

theorem dictGet_eq_none (d : Dict) (k : String) (h : k ∉ d.map Prod.fst) :
    dictGet d k = none := by
  induction d with
  | nil => rfl
  | cons kv rest ih =>
    obtain ⟨k2, v2⟩ := kv
    simp only [List.map_cons, List.mem_cons] at h
    push_neg at h
    have hne : ¬ k2 = k := fun he => h.1 he.symm
    simp [dictGet, hne, ih h.2]

/-- `find?` commutes with mapping a function that does not change the
predicate's verdict (such as a row update that keeps the row's id). -/
theorem find?_map_pres {α : Type} (l : List α) (p : α → Bool) (g : α → α)
    (hg : ∀ x, p (g x) = p x) :
    (l.map g).find? p = (l.find? p).map g := by
  induction l with
  | nil => rfl
  | cons x rest ih =>
    by_cases h : p x
    · simp [List.find?_cons, hg x, h]
    · simp only [Bool.not_eq_true] at h
      simp [List.find?_cons, hg x, h, ih]

theorem insertOrdered_perm (before : α → α → Bool) (x : α) (l : List α) :
    (insertOrdered before x l).Perm (x :: l) := by
  induction l with
  | nil => exact List.Perm.refl _
  | cons y rest ih =>
    unfold insertOrdered
    by_cases h : before x y
    · simp [h]
    · simp only [h, if_false, Bool.false_eq_true]
      exact (ih.cons y).trans (List.Perm.swap x y rest)

theorem sortOrdered_perm (before : α → α → Bool) (l : List α) :
    (sortOrdered before l).Perm l := by
  induction l with
  | nil => exact List.Perm.refl _
  | cons x rest ih =>
    exact (insertOrdered_perm before x (sortOrdered before rest)).trans (ih.cons x)

/-! ## Per-key characterization of the additive merge -/

/-- Per-key behaviour of `mergeAdditive`: over a duplicate-free new card
(any Python dict is), a key bound to a truthy value is overwritten, and a
key bound to a falsy value, or unbound, keeps the prior value. -/
theorem mergeAdditive_get (newCard : Dict) :
    ∀ existing : Dict, (newCard.map Prod.fst).Nodup → ∀ k : String,
      (∀ v, dictGet newCard k = some v →
        dictGet (mergeAdditive existing newCard) k =
          (if v.truthy then some v else dictGet existing k)) ∧
      (dictGet newCard k = none →
        dictGet (mergeAdditive existing newCard) k = dictGet existing k) := by
  induction newCard with
  | nil =>
    intro existing _ k
    constructor
    · intro v hv
      simp [dictGet] at hv
    · intro _
      rfl
  | cons kv rest ih =>
    intro existing hnd k
    obtain ⟨k2, v2⟩ := kv
    simp only [List.map_cons, List.nodup_cons] at hnd
    obtain ⟨hk2, hrest⟩ := hnd
    have hmerge : mergeAdditive existing ((k2, v2) :: rest)
        = mergeAdditive (if v2.truthy then dictSet existing k2 v2 else existing) rest := rfl
    have hstep : ∀ kk, k2 ≠ kk →
        dictGet (if v2.truthy then dictSet existing k2 v2 else existing) kk
          = dictGet existing kk := by
      intro kk hne
      by_cases ht : v2.truthy
      · simp [ht, dictGet_set_ne existing k2 kk v2 hne]
      · simp [ht]
    by_cases hk : k2 = k
    · subst hk
      constructor
      · intro v hv
        have hv2 : v2 = v := by simpa [dictGet] using hv
        subst hv2
        rw [hmerge]
        have hnone : dictGet rest k2 = none := dictGet_eq_none rest k2 hk2
        rw [(ih _ hrest k2).2 hnone]
        by_cases ht : v2.truthy
        · simp [ht, dictGet_set_self]
        · simp [ht]
      · intro hv
        simp [dictGet] at hv
    · constructor
      · intro v hv
        have hv' : dictGet rest k = some v := by simpa [dictGet, hk] using hv
        rw [hmerge, (ih _ hrest k).1 v hv', hstep k hk]
      · intro hv
        have hv' : dictGet rest k = none := by simpa [dictGet, hk] using hv
        rw [hmerge, (ih _ hrest k).2 hv', hstep k hk]

/-- C3 — counterexample.  The claim says the additive merge replaces the
record's value exactly when the new value is not an empty string, empty
array or empty object.  The number `0` is none of those, yet the code's
Python-truthiness test (`if value and ...`) skips it, keeping the prior
value, so the claim's "exactly when" fails at `\x7b"a": 0\x7d`. -/
theorem C3_counterexample :
    mergeAdditive [("a", Json.str "x")] [("a", Json.num 0)] = [("a", Json.str "x")] ∧
    Json.num 0 ≠ Json.str "" ∧ Json.num 0 ≠ Json.arr [] ∧ Json.num 0 ≠ Json.obj [] :=
  ⟨rfl, by simp, by simp, by simp⟩

/-- C3 (amended): for every record and oracle card in document modality, the
additive merge replaces the record's existing value at a key exactly when
the new value is Python-truthy — i.e. not an empty string, empty array,
empty object, `0`, `false` or `null` — and otherwise keeps the prior value;
in particular the spec's concrete example holds. -/
theorem C3_amended :
    (∀ (existing newCard : Dict) (k : String) (v : Json),
        (newCard.map Prod.fst).Nodup →
        dictGet newCard k = some v →
        dictGet (mergeAdditive existing newCard) k =
          (if v.truthy then some v else dictGet existing k)) ∧
    (∀ (existing newCard : Dict) (k : String),
        (newCard.map Prod.fst).Nodup →
        dictGet newCard k = none →
        dictGet (mergeAdditive existing newCard) k = dictGet existing k) ∧
    mergeAdditive [("a", Json.str "x"), ("b", Json.arr [])]
        [("a", Json.str ""), ("b", Json.arr [Json.num 1]), ("c", Json.str "y")]
      = [("a", Json.str "x"), ("b", Json.arr [Json.num 1]), ("c", Json.str "y")] := by
  refine ⟨?_, ?_, rfl⟩
  · intro existing newCard k v hnd hv
    exact (mergeAdditive_get newCard existing hnd k).1 v hv
  · intro existing newCard k hnd hv
    exact (mergeAdditive_get newCard existing hnd k).2 hv

/-- C3 — witness for the amended theorem at a concrete input. -/
theorem C3_witness :
    dictGet (mergeAdditive [("a", Json.str "x")] [("b", Json.num 2)]) "b"
      = some (Json.num 2) := by
  have h := C3_amended.1 [("a", Json.str "x")] [("b", Json.num 2)] "b" (Json.num 2)
    (by simp) rfl
  simpa [Json.truthy] using h

/-- C5: `emptyDefault` returns `[]` when the hint declares type `"array"`,
contains an object `"items"` description, or is itself an array; `\x7b\x7d` for
any other object-like hint; and `""` otherwise (strings, numbers, booleans,
null); and when the hint text is unparsable, `schemaDefault` falls back to
the scalar default `""` without propagating an error. -/
theorem C5_emptyDefault (parse : String → Option Json) (s : String) :
    (parse s = none → schemaDefault parse (Json.str s) = Json.str "") ∧
    (∀ v, parse s = some v → schemaDefault parse (Json.str s) = emptyDefault v) ∧
    (∀ kvs, dictGet kvs "type" = some (Json.str "array") →
        emptyDefault (Json.obj kvs) = Json.arr []) ∧
    (∀ kvs items, dictGet kvs "items" = some (Json.obj items) →
        emptyDefault (Json.obj kvs) = Json.arr []) ∧
    (∀ kvs, dictGet kvs "type" ≠ some (Json.str "array") →
        (∀ w, dictGet kvs "items" = some w → ∀ ws, w ≠ Json.obj ws) →
        emptyDefault (Json.obj kvs) = Json.obj []) ∧
    (∀ xs, emptyDefault (Json.arr xs) = Json.arr []) ∧
    (∀ t, emptyDefault (Json.str t) = Json.str "") ∧
    (emptyDefault Json.null = Json.str "") ∧
    (∀ b, emptyDefault (Json.bool b) = Json.str "") ∧
    (∀ n, emptyDefault (Json.num n) = Json.str "") := by
  refine ⟨?_, ?_, ?_, ?_, ?_, fun xs => rfl, fun t => rfl, rfl, fun b => rfl, fun n => rfl⟩
  · intro h
    simp [schemaDefault, h, emptyDefault]
  · intro v h
    simp [schemaDefault, h]
  · intro kvs h
    simp [emptyDefault, h]
  · intro kvs items h
    rcases hty : dictGet kvs "type" with _ | w
    · simp [emptyDefault, hty, h]
    · rcases w with _ | b | n | t | xs | kvs2 <;> simp [emptyDefault, hty, h]
  · intro kvs h1 h2
    have hty : (match dictGet kvs "type" with
        | some (Json.str t) => t == "array"
        | _ => false) = false := by
      rcases hty : dictGet kvs "type" with _ | w
      · rfl
      · rcases w with _ | b | n | t | xs | kvs2
        · rfl
        · rfl
        · rfl
        · have : t ≠ "array" := by
            intro he
            exact h1 (by rw [hty, he])
          simp [this]
        · rfl
        · rfl
    have hit : (match dictGet kvs "items" with
        | some (Json.obj _) => true
        | _ => false) = false := by
      rcases hit : dictGet kvs "items" with _ | w
      · rfl
      · rcases w with _ | b | n | t | xs | kvs2
        · rfl
        · rfl
        · rfl
        · rfl
        · rfl
        · exact absurd rfl (h2 _ hit kvs2)
    simp [emptyDefault, hty, hit]

/-- C5 — witness: an unparsable hint text falls back to `""`, and the
object/array branches fire on concrete hints. -/
theorem C5_witness :
    schemaDefault (fun _ => none) (Json.str "not json") = Json.str "" ∧
    emptyDefault (Json.obj [("type", Json.str "array")]) = Json.arr [] ∧
    emptyDefault (Json.obj [("type", Json.str "object")]) = Json.obj [] := by
  refine ⟨(C5_emptyDefault (fun _ => none) "not json").1 rfl, ?_, ?_⟩
  · exact (C5_emptyDefault (fun _ => none) "not json").2.2.1 [("type", Json.str "array")] rfl
  · refine (C5_emptyDefault (fun _ => none) "not json").2.2.2.2.1 [("type", Json.str "object")]
      (by simp [dictGet]) ?_
    intro w hw ws
    simp [dictGet] at hw

/-- C7: after the Recovery Sweep, every job that was `processing` is
`failed` (same row, same position), jobs in any other state — in particular
`done` and `failed` — are unchanged, and sweeping again is a no-op. -/
theorem C7_recoverySweep (logs : List EntryLog) (i : Nat) (e : EntryLog)
    (h : logs[i]? = some e) :
    (e.status = some "processing" →
        (recoverySweep logs)[i]? = some { e with status := some "failed" }) ∧
    (e.status ≠ some "processing" → (recoverySweep logs)[i]? = some e) ∧
    recoverySweep (recoverySweep logs) = recoverySweep logs := by
  refine ⟨?_, ?_, ?_⟩
  · intro hp
    simp [recoverySweep, List.getElem?_map, h, sweepOne, hp]
  · intro hp
    have hb : (e.status == some "processing") = false := by
      simpa using hp
    simp [recoverySweep, List.getElem?_map, h, sweepOne, hb]
  · unfold recoverySweep
    rw [List.map_map]
    apply List.map_congr_left
    intro a _
    simp only [Function.comp_apply, sweepOne]
    by_cases ha : a.status == some "processing"
    · simp [ha]
    · simp [ha]

/-- C7 — witness: a concrete `processing` job is `failed` after the sweep. -/
theorem C7_witness :
    (recoverySweep [logA])[0]? = some { logA with status := some "failed" } :=
  (C7_recoverySweep [logA] 0 logA rfl).1 rfl

/-- C10: a status query on an unknown job id fails with NotFound; on a job
whose stored state is null it reports `"done"` (never a null state); and the
job-history listing applies the same null-to-`"done"` defaulting
(`statusOrDone`) to every listed job. -/
theorem C10_status_defaulting (db : DB) (eid tid : Nat) :
    (db.entry_logs.find? (fun e => e.id == eid) = none →
        get_entry_status db eid = Except.error (ApiError.notFound "记录不存在")) ∧
    (∀ e, db.entry_logs.find? (fun e2 => e2.id == eid) = some e → e.status = none →
        get_entry_status db eid
          = Except.ok { entry_id := e.id, status := "done", talent_id := e.talent_id }) ∧
    (∀ views, get_entry_logs db tid = Except.ok views →
        ∀ v ∈ views, ∃ e, e ∈ db.entry_logs ∧ e.talent_id = tid ∧ e.id = v.id ∧
          v.status = statusOrDone e.status) ∧
    statusOrDone none = "done" := by
  refine ⟨?_, ?_, ?_, rfl⟩
  · intro h
    simp [get_entry_status, h]
  · intro e he hs
    simp [get_entry_status, he, statusOrDone, hs]
  · intro views hv v hmem
    unfold get_entry_logs at hv
    rcases hfind : db.talents.find? (fun t => t.id == tid) with _ | t
    · rw [hfind] at hv
      simp at hv
    · rw [hfind] at hv
      simp only [Except.ok.injEq] at hv
      subst hv
      simp only [List.mem_map] at hmem
      obtain ⟨log, hlog, hveq⟩ := hmem
      have hperm := sortOrdered_perm (fun a b => a.created_at > b.created_at)
        (db.entry_logs.filter (fun e => e.talent_id == tid))
      have hlog2 : log ∈ db.entry_logs.filter (fun e => e.talent_id == tid) :=
        hperm.mem_iff.mp hlog
      rw [List.mem_filter] at hlog2
      subst hveq
      exact ⟨log, hlog2.1, by simpa using hlog2.2, rfl, rfl⟩

/-- C10 — witness: the null-status fixture is reported `"done"`, and an
unknown id is NotFound. -/
theorem C10_witness :
    get_entry_status dbNull 1
      = Except.ok { entry_id := 1, status := "done", talent_id := 1 } ∧
    get_entry_status dbNull 99 = Except.error (ApiError.notFound "记录不存在") :=
  ⟨(C10_status_defaulting dbNull 1 1).2.1 logNull rfl rfl,
   (C10_status_defaulting dbNull 99 1).1 rfl⟩

/-! ## Lemmas about `_apply_new_dimensions` -/

/-- A covered proposal leaves registry and talents unchanged
(entry.py lines 36-42). -/
theorem applyOne_covered (parse : String → Option Json)
    (dims : List CardDimension) (talents : List Talent) (dim : Dict)
    (h : coveredDim dims dim) :
    applyOneDimension parse dims talents dim = (dims, talents) := by
  unfold coveredDim at h
  unfold applyOneDimension
  rcases hk : (dictGet dim "key").getD (Json.str "") with _ | b | n | k | xs | kvs
  · rfl
  · rfl
  · rfl
  · rw [hk] at h
    rcases h with he | hany
    · simp [he]
    · simp [hany]
  · rfl
  · rfl

/-- `_apply_new_dimensions` only ever appends to the registry, so a key that
is present stays present. -/
theorem applyOne_any_mono (parse : String → Option Json)
    (dims : List CardDimension) (talents : List Talent) (dim : Dict) (k : String)
    (h : dims.any (fun d => d.key == k) = true) :
    ((applyOneDimension parse dims talents dim).1).any (fun d => d.key == k) = true := by
  unfold applyOneDimension
  rcases hk : (dictGet dim "key").getD (Json.str "") with _ | b | n | k2 | xs | kvs
  · exact h
  · exact h
  · exact h
  · by_cases he : k2 = ""
    · simpa [he] using h
    · by_cases hany : dims.any (fun d => d.key == k2)
      · simpa [he, hany] using h
      · simp only [Bool.not_eq_true] at hany
        simp [he, hany, List.any_append, h]
  · exact h
  · exact h

/-- After processing a proposal, that proposal is covered. -/
theorem applyOne_covers_self (parse : String → Option Json)
    (dims : List CardDimension) (talents : List Talent) (dim : Dict) :
    coveredDim (applyOneDimension parse dims talents dim).1 dim := by
  unfold coveredDim applyOneDimension
  rcases hk : (dictGet dim "key").getD (Json.str "") with _ | b | n | k | xs | kvs
  · trivial
  · trivial
  · trivial
  · by_cases he : k = ""
    · exact Or.inl he
    · refine Or.inr ?_
      by_cases hany : dims.any (fun d => d.key == k)
      · simp [he, hany]
      · simp only [Bool.not_eq_true] at hany
        simp [he, hany, List.any_append]
  · trivial
  · trivial

/-- Coverage is preserved by processing further proposals. -/
theorem applyOne_covered_mono (parse : String → Option Json)
    (dims : List CardDimension) (talents : List Talent) (dim dim2 : Dict)
    (h : coveredDim dims dim2) :
    coveredDim (applyOneDimension parse dims talents dim).1 dim2 := by
  unfold coveredDim at h ⊢
  rcases hk : (dictGet dim2 "key").getD (Json.str "") with _ | b | n | k | xs | kvs
  · trivial
  · trivial
  · trivial
  · rw [hk] at h
    rcases h with he | hany
    · exact Or.inl he
    · exact Or.inr (applyOne_any_mono parse dims talents dim k hany)
  · trivial
  · trivial

/-- Coverage is preserved by a whole `_apply_new_dimensions` run. -/
theorem applyND_covered_mono (parse : String → Option Json) (nds : List Dict) :
    ∀ (dims : List CardDimension) (talents : List Talent) (dim2 : Dict),
      coveredDim dims dim2 →
      coveredDim (applyNewDimensions parse dims talents nds).1 dim2 := by
  induction nds with
  | nil =>
    intro dims talents dim2 h
    exact h
  | cons d rest ih =>
    intro dims talents dim2 h
    exact ih _ _ dim2 (applyOne_covered_mono parse dims talents d dim2 h)

/-- After `_apply_new_dimensions` returns, every proposal it processed is
covered by the resulting registry. -/
theorem applyND_covers_all (parse : String → Option Json) (nds : List Dict) :
    ∀ (dims : List CardDimension) (talents : List Talent),
      ∀ dim ∈ nds, coveredDim (applyNewDimensions parse dims talents nds).1 dim := by
  induction nds with
  | nil =>
    intro dims talents dim hmem
    simp at hmem
  | cons d rest ih =>
    intro dims talents dim hmem
    rcases List.mem_cons.mp hmem with he | hr
    · subst he
      exact applyND_covered_mono parse rest _ _ dim
        (applyOne_covers_self parse dims talents dim)
    · exact ih _ _ dim hr

/-- A run whose proposals are all covered is a no-op. -/
theorem applyND_covered_noop (parse : String → Option Json) (nds : List Dict) :
    ∀ (dims : List CardDimension) (talents : List Talent),
      (∀ dim ∈ nds, coveredDim dims dim) →
      applyNewDimensions parse dims talents nds = (dims, talents) := by
  induction nds with
  | nil =>
    intro dims talents _
    rfl
  | cons d rest ih =>
    intro dims talents h
    have h1 : applyOneDimension parse dims talents d = (dims, talents) :=
      applyOne_covered parse dims talents d (h d (List.mem_cons_self d rest))
    have hstep : applyNewDimensions parse dims talents (d :: rest)
        = applyNewDimensions parse (applyOneDimension parse dims talents d).1
            (applyOneDimension parse dims talents d).2 rest := rfl
    rw [hstep, h1]
    exact ih _ _ (fun dim hm => h dim (List.mem_cons_of_mem d hm))

/-- C6: re-proposing an existing dimension key is a no-op (no second
dimension, no backfill writes — the registry and every card are unchanged),
and a whole `_apply_new_dimensions` run is idempotent. -/
theorem C6_idempotent (parse : String → Option Json) (dims : List CardDimension)
    (talents : List Talent) :
    (∀ (dim : Dict) (k : String),
        (dictGet dim "key").getD (Json.str "") = Json.str k →
        dims.any (fun d => d.key == k) = true →
        applyNewDimensions parse dims talents [dim] = (dims, talents)) ∧
    (∀ nds : List Dict,
        applyNewDimensions parse (applyNewDimensions parse dims talents nds).1
            (applyNewDimensions parse dims talents nds).2 nds
          = applyNewDimensions parse dims talents nds) := by
  constructor
  · intro dim k hkey hex
    have hcov : coveredDim dims dim := by
      unfold coveredDim
      rw [hkey]
      exact Or.inr hex
    calc applyNewDimensions parse dims talents [dim]
        = applyOneDimension parse dims talents dim := rfl
      _ = (dims, talents) := applyOne_covered parse dims talents dim hcov
  · intro nds
    rw [applyND_covered_noop parse nds
      (applyNewDimensions parse dims talents nds).1
      (applyNewDimensions parse dims talents nds).2
      (applyND_covers_all parse nds dims talents)]

/-- C6 — witness: proposing the already-registered key `"skills"` again
changes nothing, and the concrete run over `[propA]` is idempotent. -/
theorem C6_witness :
    applyNewDimensions parseStub [dimA] [talentA] [[("key", Json.str "skills")]]
      = ([dimA], [talentA]) ∧
    applyNewDimensions parseStub
        (applyNewDimensions parseStub [dimA] [talentA] [propA]).1
        (applyNewDimensions parseStub [dimA] [talentA] [propA]).2 [propA]
      = applyNewDimensions parseStub [dimA] [talentA] [propA] :=
  ⟨(C6_idempotent parseStub [dimA] [talentA]).1 [("key", Json.str "skills")] "skills" rfl rfl,
   (C6_idempotent parseStub [dimA] [talentA]).2 [propA]⟩

/-- C4 — the code violates the claim.  The backfill write (entry.py 75-78)
mutates the loaded card dict in place and reassigns the same object, so for
a record whose loaded card is non-empty the plain JSON column detects no
change and the write is never flushed.  At this input the run appends the
new `"projects"` dimension to the registry at order 1, and `talentA`'s card
lacks the key, yet the stored talent table is unchanged — the key is never
persisted; by contrast a record whose loaded card is null goes through a
fresh dict and does receive the key. -/
theorem C4_backfill_dropped :
    (applyNewDimensions parseStub [dimA] [talentA] [propA]).1
      = [dimA, { key := "projects", label := "项目", schema := "[]",
                 is_default := false, sort_order := 1 }] ∧
    dictContains (talentA.card_data.getD []) "projects" = false ∧
    (applyNewDimensions parseStub [dimA] [talentA] [propA]).2 = [talentA] ∧
    (applyNewDimensions parseStub [dimA]
        [{ talentA with id := 2, card_data := none }] [propA]).2
      = [{ talentA with id := 2, card_data := some [("projects", Json.arr [])] }] :=
  ⟨rfl, rfl, rfl, rfl⟩

/-! ## Lemmas about the text pipeline -/

/-- `_ensure_tags` never raises when every suggested name is a string. -/
theorem ensure_tags_ok (names : List Json)
    (h : ∀ x ∈ names, ∃ s, x = Json.str s) :
    ∀ tags : List Tag, ∃ pr, ensure_tags tags names = Except.ok pr := by
  induction names with
  | nil =>
    intro tags
    exact ⟨([], tags), rfl⟩
  | cons n rest ih =>
    intro tags
    have hrest : ∀ x ∈ rest, ∃ s, x = Json.str s :=
      fun x hx => h x (List.mem_cons_of_mem _ hx)
    obtain ⟨s, rfl⟩ := h n (List.mem_cons_self n rest)
    unfold ensure_tags
    by_cases he : s.trim = ""
    · simp only [he, if_true]
      exact ih hrest tags
    · simp only [he, if_false]
      rcases hf : tags.find? (fun t => t.name == s.trim) with _ | tag
      · obtain ⟨⟨ids, tags2⟩, hpr⟩ := ih hrest
          (tags ++ [{ id := freshTagId tags, name := s.trim, color := "#3B82F6" }])
        rw [hf, hpr]
        exact ⟨_, rfl⟩
      · obtain ⟨⟨ids, tags2⟩, hpr⟩ := ih hrest tags
        rw [hf, hpr]
        exact ⟨_, rfl⟩

/-- The talent-table component of one backfill step is a map of a function
that keeps each row's id and summary. -/
theorem applyOne_talents_map (parse : String → Option Json)
    (dims : List CardDimension) (talents : List Talent) (dim : Dict) :
    ∃ g : Talent → Talent,
      (applyOneDimension parse dims talents dim).2 = talents.map g ∧
      ∀ u, (g u).id = u.id ∧ (g u).summary = u.summary := by
  unfold applyOneDimension
  rcases hk : (dictGet dim "key").getD (Json.str "") with _ | b | n | k | xs | kvs
  · exact ⟨fun u => u, (List.map_id' talents).symm, fun u => ⟨rfl, rfl⟩⟩
  · exact ⟨fun u => u, (List.map_id' talents).symm, fun u => ⟨rfl, rfl⟩⟩
  · exact ⟨fun u => u, (List.map_id' talents).symm, fun u => ⟨rfl, rfl⟩⟩
  · by_cases he : k = ""
    · simp only [he, if_true]
      exact ⟨fun u => u, (List.map_id' talents).symm, fun u => ⟨rfl, rfl⟩⟩
    · by_cases hany : dims.any (fun d => d.key == k)
      · simp only [he, if_false, hany, if_true]
        exact ⟨fun u => u, (List.map_id' talents).symm, fun u => ⟨rfl, rfl⟩⟩
      · simp only [Bool.not_eq_true] at hany
        simp only [he, if_false, hany, Bool.false_eq_true]
        refine ⟨_, rfl, ?_⟩
        intro u
        by_cases hc : dictContains (u.card_data.getD []) k
        · simp [hc]
        · by_cases hemp : (u.card_data.getD []).isEmpty
          · simp [hc, hemp]
          · simp [hc, hemp]
  · exact ⟨fun u => u, (List.map_id' talents).symm, fun u => ⟨rfl, rfl⟩⟩
  · exact ⟨fun u => u, (List.map_id' talents).symm, fun u => ⟨rfl, rfl⟩⟩

/-- The talent-table component of a whole `_apply_new_dimensions` run is a
map of a function that keeps each row's id and summary. -/
theorem applyND_talents_map (parse : String → Option Json) (nds : List Dict) :
    ∀ (dims : List CardDimension) (talents : List Talent),
      ∃ g : Talent → Talent,
        (applyNewDimensions parse dims talents nds).2 = talents.map g ∧
        ∀ u, (g u).id = u.id ∧ (g u).summary = u.summary := by
  induction nds with
  | nil =>
    intro dims talents
    exact ⟨fun u => u, (List.map_id' talents).symm, fun u => ⟨rfl, rfl⟩⟩
  | cons d rest ih =>
    intro dims talents
    obtain ⟨g1, hg1, hpres1⟩ := applyOne_talents_map parse dims talents d
    obtain ⟨g2, hg2, hpres2⟩ := ih (applyOneDimension parse dims talents d).1
      (applyOneDimension parse dims talents d).2
    refine ⟨g2 ∘ g1, ?_, ?_⟩
    · have hstep : applyNewDimensions parse dims talents (d :: rest)
          = applyNewDimensions parse (applyOneDimension parse dims talents d).1
              (applyOneDimension parse dims talents d).2 rest := rfl
      rw [hstep, hg2, hg1, List.map_map]
    · intro u
      exact ⟨(hpres2 (g1 u)).1.trans (hpres1 u).1,
             (hpres2 (g1 u)).2.trans (hpres1 u).2⟩

/-- Looking up the updated row after `updTalent` with an id-preserving
update. -/
theorem find?_updTalent (l : List Talent) (tid : Nat) (f : Talent → Talent)
    (hf : ∀ u, (f u).id = u.id) :
    (updTalent l tid f).find? (fun u => u.id == tid)
      = (l.find? (fun u => u.id == tid)).map (fun u => if u.id == tid then f u else u) := by
  unfold updTalent
  exact find?_map_pres _ _ _ (fun x => by by_cases h : x.id == tid <;> simp [h, hf x])

/-- Status reported for an entry after `finalize_entry` set a non-empty
terminal state. -/
theorem get_status_finalize (logs : List EntryLog) (eid : Nat) (e : EntryLog)
    (r : LlmResponse) (st : String)
    (he : logs.find? (fun u => u.id == eid) = some e) (hst : st ≠ "") :
    ∀ (talents : List Talent) (dims : List CardDimension) (tags : List Tag)
      (tts : List TalentTag),
      get_entry_status
        { talents := talents, dimensions := dims, tags := tags,
          talent_tags := tts, entry_logs := finalize_entry logs eid r st } eid
        = Except.ok { entry_id := e.id, status := st, talent_id := e.talent_id } := by
  intro talents dims tags tts
  have heid := List.find?_some he
  have heq : e.id = eid := by simpa using heid
  unfold get_entry_status finalize_entry
  rw [find?_map_pres _ _ _ (fun x => by by_cases h : x.id == eid <;> simp [h]), he]
  simp [heq, statusOrDone, hst]

/-- Shape of a committed successful text ingestion
(entry.py lines 104-142): the card is replaced wholesale, the summary only
when truthy, and the entry log is finalized as `done` with the dumped
result. -/
theorem processText_ok_shape (parse : String → Option Json) (result : LlmResult)
    (db : DB) (eid tid : Nat) (snap : Dict) (t : Talent)
    (ht : db.talents.find? (fun u => u.id == tid) = some t)
    (htags : ∀ x ∈ result.suggested_tags, ∃ s, x = Json.str s) :
    ∃ (tags2 : List Tag) (tts2 : List TalentTag),
      processTextEntryBg parse (Except.ok result) db eid tid snap
        = { talents :=
              (if result.summary = "" then
                 updTalent (applyNewDimensions parse db.dimensions db.talents
                     result.new_dimensions).2 tid
                   (fun u => { u with card_data := some result.card_data })
               else
                 updTalent (updTalent (applyNewDimensions parse db.dimensions db.talents
                     result.new_dimensions).2 tid
                   (fun u => { u with card_data := some result.card_data })) tid
                   (fun u => { u with summary := result.summary })),
            dimensions := (applyNewDimensions parse db.dimensions db.talents
                result.new_dimensions).1,
            tags := tags2, talent_tags := tts2,
            entry_logs := finalize_entry db.entry_logs eid
              (.stored result.toJson) "done" } := by
  unfold processTextEntryBg update_talent_card
  rw [ht]
  by_cases hemp : result.suggested_tags.isEmpty
  · exact ⟨db.tags, db.talent_tags, by simp only [hemp, if_true]⟩
  · simp only [Bool.not_eq_true] at hemp
    obtain ⟨⟨ids, tags2⟩, hpr⟩ := ensure_tags_ok result.suggested_tags htags db.tags
    refine ⟨tags2, link_tags db.talent_tags tid ids, ?_⟩
    simp only [hemp, Bool.false_eq_true, if_false, hpr]

/-- C8: for a text-modality job that succeeds, the record's card is replaced
wholesale by the oracle's returned card (no per-key retention), and the
summary is replaced exactly when the oracle's summary is non-empty, the
prior summary being kept otherwise; the job is finalized `done`. -/
theorem C8_overwrite_merge (parse : String → Option Json) (db : DB) (eid tid : Nat)
    (snap : Dict) (t : Talent) (e : EntryLog) (result : LlmResult)
    (ht : db.talents.find? (fun u => u.id == tid) = some t)
    (he : db.entry_logs.find? (fun u => u.id == eid) = some e)
    (htags : ∀ x ∈ result.suggested_tags, ∃ s, x = Json.str s) :
    ∃ t2, (processTextEntryBg parse (Except.ok result) db eid tid snap).talents.find?
            (fun u => u.id == tid) = some t2 ∧
          t2.card_data = some result.card_data ∧
          t2.summary = (if result.summary = "" then t.summary else result.summary) ∧
          get_entry_status (processTextEntryBg parse (Except.ok result) db eid tid snap) eid
            = Except.ok { entry_id := e.id, status := "done", talent_id := e.talent_id } := by
  obtain ⟨tags2, tts2, hshape⟩ := processText_ok_shape parse result db eid tid snap t ht htags
  rw [hshape]
  obtain ⟨g, hg, hpres⟩ := applyND_talents_map parse result.new_dimensions
    db.dimensions db.talents
  have htid := List.find?_some ht
  have hteq : t.id = tid := by simpa using htid
  have hgp : ∀ x : Talent, ((g x).id == tid) = (x.id == tid) := by
    intro x
    rw [(hpres x).1]
  have hfind2 : (updTalent (applyNewDimensions parse db.dimensions db.talents
        result.new_dimensions).2 tid
        (fun u => { u with card_data := some result.card_data })).find?
        (fun u => u.id == tid)
      = some { g t with card_data := some result.card_data } := by
    rw [hg, find?_updTalent (List.map g db.talents) tid
        (fun u => { u with card_data := some result.card_data }) (fun u => rfl),
      find?_map_pres _ _ _ hgp, ht]
    simp [(hpres t).1, hteq]
  by_cases hsum : result.summary = ""
  · refine ⟨{ g t with card_data := some result.card_data }, ?_, rfl, ?_, ?_⟩
    · simp only [if_pos hsum]
      exact hfind2
    · simp [hsum, (hpres t).2]
    · simp only [if_pos hsum]
      exact get_status_finalize db.entry_logs eid e (.stored result.toJson) "done" he
        (by decide) _ _ _ _
  · refine ⟨{ g t with card_data := some result.card_data, summary := result.summary },
      ?_, rfl, ?_, ?_⟩
    · simp only [if_neg hsum]
      rw [find?_updTalent _ tid
        (fun u => { u with summary := result.summary }) (fun u => rfl), hfind2]
      simp [(hpres t).1, hteq]
    · simp [hsum]
    · simp only [if_neg hsum]
      exact get_status_finalize db.entry_logs eid e (.stored result.toJson) "done" he
        (by decide) _ _ _ _

/-- C8 — witness: the spec's end-to-end scenario oracle result replaces the
card wholesale, updates the summary, and finalizes the job `done`. -/
theorem C8_witness :
    ∃ t2, (processTextEntryBg parseStub (Except.ok resultGood) dbNull 1 1 []).talents.find?
            (fun u => u.id == 1) = some t2 ∧
          t2.card_data = some resultGood.card_data ∧
          t2.summary = "Go/distributed systems engineer" ∧
          get_entry_status (processTextEntryBg parseStub (Except.ok resultGood) dbNull 1 1 []) 1
            = Except.ok { entry_id := 1, status := "done", talent_id := 1 } := by
  obtain ⟨t2, h1, h2, h3, h4⟩ := C8_overwrite_merge parseStub dbNull 1 1 [] talentA logNull
    resultGood rfl rfl (fun x hx => ⟨"Go", by simpa [resultGood] using hx⟩)
  exact ⟨t2, h1, h2, h3, h4⟩

/-! ## Oracle-failure behaviour (C1) -/

/-- `updTalent` with the identity update changes nothing. -/
theorem updTalent_id (l : List Talent) (tid : Nat) :
    updTalent l tid (fun u => u) = l := by
  unfold updTalent
  simp

/-- Shape of a text ingestion whose oracle call raised: the client's caught
exception produces the fallback result, so the task re-writes the snapshot
card, changes nothing else, and finalizes the job `done`. -/
theorem processText_oracle_error (parse : String → Option Json) (msg : String)
    (db : DB) (eid tid : Nat) (snap : Dict) (t : Talent)
    (ht : db.talents.find? (fun u => u.id == tid) = some t) :
    processTextEntryBg parse (Except.error msg) db eid tid snap
      = { talents := updTalent db.talents tid (fun u => { u with card_data := some snap }),
          dimensions := db.dimensions, tags := db.tags, talent_tags := db.talent_tags,
          entry_logs := finalize_entry db.entry_logs eid
            (.stored (update_talent_card (Except.error msg) snap).toJson) "done" } := by
  unfold processTextEntryBg update_talent_card
  rw [ht]
  rfl

/-- Shape of a document ingestion whose oracle call raised: the client's
caught exception degrades to the empty result, so the task merges nothing
(the empty merge re-writes the record's card value only when the loaded
card was falsy, where the code builds and flushes a fresh empty dict),
keeps every contact field, and finalizes the job `done`. -/
theorem processPdf_oracle_error (parse : String → Option Json) (msg : String)
    (db : DB) (eid tid : Nat) (t : Talent)
    (ht : db.talents.find? (fun u => u.id == tid) = some t) :
    processPdfEntryBg parse (Except.error msg) db eid tid
      = { talents :=
            (if (t.card_data.getD []).isEmpty ∧
                db.dimensions.length - db.dimensions.length ≤ 1 then
               updTalent (updTalent db.talents tid (fun u => u)) tid
                 (fun u => { u with card_data := some (mergeAdditive (u.card_data.getD []) []) })
             else updTalent db.talents tid (fun u => u)),
          dimensions := db.dimensions, tags := db.tags, talent_tags := db.talent_tags,
          entry_logs := finalize_entry db.entry_logs eid (.stored pdfFallback) "done" } := by
  unfold processPdfEntryBg parse_pdf_content
  rw [ht]
  rfl

/-- C1 — counterexample.  The claim says an always-throwing oracle drives
the job to `failed`.  In the code, `update_talent_card` catches the throw
and returns a no-op fallback result, so the job is finalized `done` (the
card is indeed unchanged): submitting a note for `talentA` and running the
background task with a raising oracle ends with status `"done"`, which is
not `"failed"`. -/
theorem C1_counterexample :
    submit_text_entry dbA 1 "note" 5
      = Except.ok (dbASubmitted, 1, [("a", Json.str "x")]) ∧
    get_entry_status (processTextEntryBg (fun _ => none) (Except.error "oracle down")
        dbASubmitted 1 1 [("a", Json.str "x")]) 1
      = Except.ok { entry_id := 1, status := "done", talent_id := 1 } ∧
    "done" ≠ "failed" ∧
    ((processTextEntryBg (fun _ => none) (Except.error "oracle down")
        dbASubmitted 1 1 [("a", Json.str "x")]).talents.find? (fun u => u.id == 1)).map
        (fun u => u.card_data)
      = some (some [("a", Json.str "x")]) :=
  ⟨rfl, rfl, by decide, rfl⟩

/-- C1 (amended): for every ingestion job (text or document modality) whose
oracle call throws, the oracle client absorbs the exception and returns a
no-op fallback result, so the job reaches terminal state `done` — not
`failed`, and with no error text stored — while the owning record's card
value is unchanged from before submission. -/
theorem C1_amended (parse : String → Option Json) (db : DB) (eid tid : Nat)
    (t : Talent) (e : EntryLog) (msg : String)
    (ht : db.talents.find? (fun u => u.id == tid) = some t)
    (he : db.entry_logs.find? (fun u => u.id == eid) = some e) :
    (((processTextEntryBg parse (Except.error msg) db eid tid
          (t.card_data.getD [])).talents.find? (fun u => u.id == tid)).map
        (fun u => u.card_data.getD [])
      = some (t.card_data.getD []) ∧
     get_entry_status (processTextEntryBg parse (Except.error msg) db eid tid
          (t.card_data.getD [])) eid
      = Except.ok { entry_id := e.id, status := "done", talent_id := e.talent_id }) ∧
    (((processPdfEntryBg parse (Except.error msg) db eid tid).talents.find?
          (fun u => u.id == tid)).map (fun u => u.card_data.getD [])
      = some (t.card_data.getD []) ∧
     get_entry_status (processPdfEntryBg parse (Except.error msg) db eid tid) eid
      = Except.ok { entry_id := e.id, status := "done", talent_id := e.talent_id }) := by
  have htid := List.find?_some ht
  have hteq : t.id = tid := by simpa using htid
  rw [processText_oracle_error parse msg db eid tid (t.card_data.getD []) t ht,
      processPdf_oracle_error parse msg db eid tid t ht]
  refine ⟨⟨?_, ?_⟩, ?_, ?_⟩
  · rw [find?_updTalent db.talents tid
      (fun u => { u with card_data := some (t.card_data.getD []) }) (fun u => rfl), ht]
    simp [hteq]
  · exact get_status_finalize db.entry_logs eid e _ "done" he (by decide) _ _ _ _
  · rw [updTalent_id]
    by_cases hempt : (t.card_data.getD []).isEmpty
    · rw [if_pos ⟨hempt, by omega⟩, find?_updTalent db.talents tid
        (fun u => { u with card_data := some (mergeAdditive (u.card_data.getD []) []) })
        (fun u => rfl), ht]
      simp [hteq, mergeAdditive]
    · rw [if_neg (fun hcon => hempt hcon.1), ht]
      rfl
  · exact get_status_finalize db.entry_logs eid e _ "done" he (by decide) _ _ _ _

/-- C1 — witness for the amended theorem: with the concrete fixture and a
raising oracle, both modalities end `done`. -/
theorem C1_witness :
    get_entry_status (processTextEntryBg (fun _ => none) (Except.error "boom")
        dbASubmitted 1 1 (talentA.card_data.getD [])) 1
      = Except.ok { entry_id := 1, status := "done", talent_id := 1 } ∧
    get_entry_status (processPdfEntryBg (fun _ => none) (Except.error "boom")
        dbASubmitted 1 1) 1
      = Except.ok { entry_id := 1, status := "done", talent_id := 1 } :=
  ⟨(C1_amended (fun _ => none) dbASubmitted 1 1 talentA logA "boom" rfl rfl).1.2,
   (C1_amended (fun _ => none) dbASubmitted 1 1 talentA logA "boom" rfl rfl).2.2⟩

/-- C2 — the code violates the claim at this input.  When the oracle result
carries a non-string suggested tag, `_ensure_tags` raises `AttributeError`
*after* the session has already replaced the talent's card; the `except`
handler then marks the job `failed`, stores the error, and commits the
session **without a rollback**, so the staged card mutation is committed
together with the terminal `failed` state: here the job ends `failed` with
the error dump stored, yet the record's card has changed from
`\x7b"a": "x"\x7d` to `\x7b"skills": ["Go"]\x7d`. -/
theorem C2_partial_commit :
    get_entry_status (processTextEntryBg (fun _ => none) (Except.ok resultBad)
        dbASubmitted 1 1 [("a", Json.str "x")]) 1
      = Except.ok { entry_id := 1, status := "failed", talent_id := 1 } ∧
    ((processTextEntryBg (fun _ => none) (Except.ok resultBad)
        dbASubmitted 1 1 [("a", Json.str "x")]).entry_logs.find?
        (fun u => u.id == 1)).map (fun u => u.llm_response)
      = some (.stored (errorDump "AttributeError: object has no attribute strip")) ∧
    ((processTextEntryBg (fun _ => none) (Except.ok resultBad)
        dbASubmitted 1 1 [("a", Json.str "x")]).talents.find? (fun u => u.id == 1)).map
        (fun u => u.card_data)
      = some (some [("skills", Json.arr [Json.str "Go"])]) ∧
    (some [("skills", Json.arr [Json.str "Go"])] : Option Dict)
      ≠ some [("a", Json.str "x")] := by
  refine ⟨rfl, rfl, rfl, ?_⟩
  simp

/-! ## Lemmas about `create_talent` and the startup cleanup -/

/-- Keys not written by the initial-card fold keep their prior binding. -/
theorem dictGet_foldl_not_mem (parse : String → Option Json) (dims : List CardDimension) :
    ∀ (acc : Dict) (k : String), k ∉ dims.map CardDimension.key →
      dictGet (dims.foldl
          (fun card d => dictSet card d.key ((parse d.schema).getD (Json.str ""))) acc) k
        = dictGet acc k := by
  induction dims with
  | nil =>
    intro acc k _
    rfl
  | cons d rest ih =>
    intro acc k hk
    simp only [List.map_cons, List.mem_cons] at hk
    push_neg at hk
    rw [List.foldl_cons, ih _ k hk.2, dictGet_set_ne _ _ _ _ (fun he => hk.1 he.symm)]

/-- Over a duplicate-free registry, the initial-card fold binds every
dimension's key to its parsed schema (with the `""` fallback). -/
theorem dictGet_foldl_mem (parse : String → Option Json) (dims : List CardDimension) :
    ∀ (acc : Dict) (d : CardDimension),
      (dims.map CardDimension.key).Nodup → d ∈ dims →
      dictGet (dims.foldl
          (fun card d2 => dictSet card d2.key ((parse d2.schema).getD (Json.str ""))) acc) d.key
        = some ((parse d.schema).getD (Json.str "")) := by
  induction dims with
  | nil =>
    intro acc d _ h
    simp at h
  | cons d0 rest ih =>
    intro acc d hnd hmem
    simp only [List.map_cons, List.nodup_cons] at hnd
    rw [List.foldl_cons]
    rcases List.mem_cons.mp hmem with he | hr
    · subst he
      rw [dictGet_foldl_not_mem parse rest _ d.key hnd.1, dictGet_set_self]
    · exact ih _ d hnd.2 hr

/-- C9: a newly created talent's card maps each registered dimension key to
the parsed JSON value of that dimension's schema text — the schema literal
itself, not the backfill's structural empty default — falling back to `""`
when the text is unparsable; and the startup pass rewrites schema-shaped
card values (objects carrying `"type"` plus `"properties"` or `"items"`) to
`[]` when the declared type is `"array"` and to `\x7b\x7d` otherwise, leaving
every other value untouched. -/
theorem C9_initial_card (parse : String → Option Json) (db : DB)
    (name email phone current_role department : String)
    (hnd : (db.dimensions.map CardDimension.key).Nodup) :
    (∀ d ∈ db.dimensions,
        dictGet ((create_talent parse db name email phone
              current_role department).2.card_data.getD []) d.key
          = some ((parse d.schema).getD (Json.str ""))) ∧
    (∀ kvs : List (String × Json),
        dictGet kvs "type" = some (Json.str "array") →
        (dictContains kvs "properties" || dictContains kvs "items") = true →
        cleanValue (Json.obj kvs) = Json.arr []) ∧
    (∀ (kvs : List (String × Json)) (t2 : String),
        dictGet kvs "type" = some (Json.str t2) → t2 ≠ "array" →
        (dictContains kvs "properties" || dictContains kvs "items") = true →
        cleanValue (Json.obj kvs) = Json.obj []) ∧
    (∀ v : Json, isSchemaShaped v = false → cleanValue v = v) ∧
    (∀ (talents : List Talent) (i : Nat) (t2 : Talent) (card : Dict),
        talents[i]? = some t2 → t2.card_data = some card → card ≠ [] →
        ∃ t3, (cleanupSchemaValues talents)[i]? = some t3 ∧
          t3.card_data = some (cleanCard card)) := by
  refine ⟨?_, ?_, ?_, ?_, ?_⟩
  · intro d hd
    have hperm := sortOrdered_perm (fun a b => a.sort_order < b.sort_order) db.dimensions
    have hnd2 : ((sortedDimensions db.dimensions).map CardDimension.key).Nodup :=
      ((hperm.map CardDimension.key).nodup_iff).mpr hnd
    have hd2 : d ∈ sortedDimensions db.dimensions := hperm.mem_iff.mpr hd
    exact dictGet_foldl_mem parse (sortedDimensions db.dimensions) [] d hnd2 hd2
  · intro kvs hty hpi
    have hcont : dictContains kvs "type" = true := by
      unfold dictContains
      rw [hty]
      rfl
    simp [cleanValue, isSchemaShaped, hcont, hpi, hty]
  · intro kvs t2 hty ht2 hpi
    have hcont : dictContains kvs "type" = true := by
      unfold dictContains
      rw [hty]
      rfl
    simp [cleanValue, isSchemaShaped, hcont, hpi, hty, ht2]
  · intro v h
    simp [cleanValue, h]
  · intro talents i t2 card hi hcard hne
    have hne2 : card.isEmpty = false := by
      cases card
      · exact absurd rfl hne
      · rfl
    refine ⟨{ t2 with card_data := some (cleanCard card) }, ?_, rfl⟩
    simp [cleanupSchemaValues, List.getElem?_map, hi, hcard, hne2]

/-- C9 — witness: a fresh talent over the `"skills"` registry gets the
parsed schema literal `[]`, and a schema-shaped array value is rewritten to
`[]` by the cleanup. -/
theorem C9_witness :
    dictGet ((create_talent parseStub { dbA with dimensions := [dimA] }
        "Bob" "" "" "" "").2.card_data.getD []) "skills" = some (Json.arr []) ∧
    cleanValue (Json.obj [("type", Json.str "array"), ("items", Json.obj [])])
      = Json.arr [] := by
  have h := C9_initial_card parseStub { dbA with dimensions := [dimA] }
    "Bob" "" "" "" "" (by simp [dimA])
  constructor
  · exact h.1 dimA (List.mem_singleton.mpr rfl)
  · exact h.2.1 [("type", Json.str "array"), ("items", Json.obj [])] rfl rfl
